import Mathlib

/-!
# Verification development for `finished/main.go` (jasmaa/go-workshop)

The program builds a `map[string]entry` from a fixed list of records, then
races a ten-second timer against a ten-iteration interactive query loop over
one unbuffered channel.

The embedding is shallow:

* `human`, `dog`, `entry` follow the Go types; a `*human` is an address.
* `GoMap` stands for `map[string]entry` (a finite association list with
  unique keys); `buildLookup` is the range loop of lines 42-45.
* standard input is the list of characters still unread; `Scanln` follows the
  scanner of the Go standard library for one `*string` operand.
* each goroutine is a state transformer on a `World` (directory, unread
  input, trace of observable events). The input is finite: a read at its end
  returns at once with an error, as at end of file. Scheduling and elapsed
  time are not part of the model; a sleep is recorded with its duration.
-/

set_option autoImplicit false

namespace GoWorkshop

/-! ## Data model (lines 8-29) -/

/-- A Go value of type `*human`: nil, or the address of a variable. -/
inductive Ptr where
  | null : Ptr
  | addr (a : Nat) : Ptr
deriving DecidableEq, Repr

/-- The struct `human` (lines 12-15). -/
structure human where
  name : String
  age : Int
deriving DecidableEq, Repr

/-- The struct `dog` (lines 17-21); `owner` is a pointer, not a copy. -/
structure dog where
  name : String
  owner : Ptr
  age : Int
deriving DecidableEq, Repr

/-- A value of interface type `entry`: its dynamic type is `human` or `dog`.
Equality is Go interface equality: same dynamic type, equal fields, pointers
compared by address. -/
inductive entry where
  | ofHuman (h : human) : entry
  | ofDog (d : dog) : entry
deriving DecidableEq, Repr

/-- Method `func (h human) getKey() string` (lines 23-25). -/
def human.getKey (h : human) : String := h.name

/-- Method `func (d dog) getKey() string` (lines 27-29). -/
def dog.getKey (d : dog) : String := d.name

/-- Dynamic dispatch of `getKey` through the interface. -/
def entry.getKey : entry → String
  | .ofHuman h => h.getKey
  | .ofDog d => d.getKey

/-! ## The map and the build loop (lines 42-45) -/

/-- A `map[string]entry`: finitely many bindings, at most one per key. -/
abbrev GoMap := List (String × entry)

/-- The call `make(map[string]entry)`: the empty map. -/
def GoMap.make : GoMap := []

/-- The comma-ok index expression `v, ok := m[k]`; `none` is `ok == false`. -/
def GoMap.get : GoMap → String → Option entry
  | [], _ => none
  | (k', v) :: t, k => if k' = k then some v else GoMap.get t k

/-- The assignment `m[k] = v`: overwrite the binding of `k`, or add one. -/
def GoMap.set : GoMap → String → entry → GoMap
  | [], k, v => [(k, v)]
  | (k', v') :: t, k, v => if k' = k then (k, v) :: t else (k', v') :: GoMap.set t k v

/-- The loop `for _, entry := range entryList { lookup[entry.getKey()] = entry }`
run from a given map. -/
def buildFrom (m : GoMap) (entryList : List entry) : GoMap :=
  entryList.foldl (fun acc e => acc.set e.getKey e) m

/-- Lines 42-45: a fresh map, then the range loop over `entryList`. -/
def buildLookup (entryList : List entry) : GoMap :=
  buildFrom GoMap.make entryList

/-! ## Formatting (the verbs used by the program) -/

/-- The verb `%d` on an `int`: decimal digits, a minus sign when negative. -/
def fmtInt : Int → String
  | .ofNat n => String.mk (Nat.toDigits 10 n)
  | .negSucc n => "-" ++ String.mk (Nat.toDigits 10 (n + 1))

/-- A pointer inside a struct under `%v`: the address in hexadecimal with the
`0x` mark, or `<nil>`. The pointee is not printed. -/
def fmtPtr : Ptr → String
  | .null => "<nil>"
  | .addr a => if a = 0 then "<nil>" else "0x" ++ String.mk (Nat.toDigits 16 a)

/-- The default format `%v` of an `entry`, as `fmt.Println(entry)` prints it:
the fields in braces, separated by single blanks. -/
def render : entry → String
  | .ofHuman h => "\x7b" ++ h.name ++ " " ++ fmtInt h.age ++ "\x7d"
  | .ofDog d => "\x7b" ++ d.name ++ " " ++ fmtPtr d.owner ++ " " ++ fmtInt d.age ++ "\x7d"

/-- The text `fmt.Println(s)` writes: the operand and a newline. -/
def Println (s : String) : String := s ++ "\n"

/-- The text of `fmt.Printf("You have %d queries left...\n", n)` (line 57). -/
def queriesLeft (n : Int) : String := "You have " ++ fmtInt n ++ " queries left...\n"

/-! ## Reading a word: `fmt.Scanln(&input)` (line 61)

Standard input is the list of characters not read yet. The three phases are
those of the library scanner for one `*string` operand: skip blanks, take
the word, demand the end of the line. -/

/-- The ranges of the scanner's table of space characters. -/
def space : List (Nat × Nat) :=
  [(0x0009, 0x000d), (0x0020, 0x0020), (0x0085, 0x0085), (0x00a0, 0x00a0),
   (0x1680, 0x1680), (0x2000, 0x200a), (0x2028, 0x2029), (0x202f, 0x202f),
   (0x205f, 0x205f), (0x3000, 0x3000)]

/-- The scan of the sorted range table: below a range is a miss, inside it a hit. -/
def inRanges (rx : Nat) : List (Nat × Nat) → Bool
  | [] => false
  | rng :: rest =>
    if rx < rng.1 then false
    else if rx ≤ rng.2 then true
    else inRanges rx rest

/-- The scanner's `isSpace`: false from `1<<16` on, else the table scan. -/
def isSpace (r : Char) : Bool :=
  if r.toNat ≥ 65536 then false else inRanges r.toNat space

/-- The scanner's `SkipSpace` when a newline is not a space (the `Scanln`
family): `.ok rest` when it stops before a non-space character or at the
end of input, `.error rest` for "unexpected newline" (the newline is consumed). -/
def SkipSpace : List Char → Except (List Char) (List Char)
  | [] => .ok []
  | r :: rest =>
    if r = '\r' ∧ rest.head? = some '\n' then SkipSpace rest
    else if r = '\n' then .error rest
    else if !isSpace r then .ok (r :: rest)
    else SkipSpace rest

/-- The scanner's `token(true, notSpace)`: the characters up to the first
space character or the end of input, and what follows them. -/
def token : List Char → List Char × List Char
  | [] => ([], [])
  | r :: rest =>
    if isSpace r then ([], r :: rest)
    else ((r :: (token rest).1), (token rest).2)

/-- The check after the last operand: read up to a newline or the end of
input; a non-space character before that is consumed and is the error
"expected newline" (`true`). -/
def expectNewline : List Char → Bool × List Char
  | [] => (false, [])
  | r :: rest =>
    if r = '\n' then (false, rest)
    else if !isSpace r then (true, rest)
    else expectNewline rest

/-- The errors `fmt.Scanln(&input)` can return: a newline where the word was
due ("unexpected newline"), text after the word ("expected newline"), or the
end of input where the word was due. -/
inductive ScanError where
  | unexpectedNewline : ScanError
  | expectedNewline : ScanError
  | endOfInput : ScanError
deriving DecidableEq, Repr

/-- What a call `fmt.Scanln(&input)` leaves behind: the value of `input`,
the two results `n` and `err` (`none` is `nil`), and the unread input. -/
structure ScanResult where
  input : String
  n : Nat
  err : Option ScanError
  stdin : List Char
deriving DecidableEq, Repr

/-- The call `fmt.Scanln(&input)` with `input` holding `input0` before it.
A failure before the word is taken leaves `input` as it was. -/
def Scanln (input0 : String) (stdin : List Char) : ScanResult :=
  match SkipSpace stdin with
  | .error rest => ⟨input0, 0, some .unexpectedNewline, rest⟩
  | .ok [] => ⟨input0, 0, some .endOfInput, []⟩
  | .ok (r :: rest) =>
    let t := token (r :: rest)
    let e := expectNewline t.2
    ⟨String.mk t.1, 1, if e.1 then some .expectedNewline else none, e.2⟩

/-- The function `strings.TrimSpace` on a line: leading and trailing space
characters removed. -/
def trimSpace (line : List Char) : List Char :=
  ((line.dropWhile isSpace).reverse.dropWhile isSpace).reverse

/-! ## Goroutines as state transformers -/

/-- The type `time.Duration`: a count of nanoseconds. -/
abbrev Duration := Int

/-- The constant `time.Second`. -/
def Second : Duration := 1000000000

/-- The observable actions of the program. -/
inductive Event where
  | print (s : String) : Event
  | scanln (input : String) (err : Option ScanError) : Event
  | sleep (d : Duration) : Event
  | send (msg : String) : Event
deriving DecidableEq, Repr

/-- What a goroutine can see and change: the map `lookup`, the unread
standard input, and the actions it has performed so far, oldest first. -/
structure World where
  lookup : GoMap
  stdin : List Char
  trace : List Event
deriving DecidableEq, Repr

/-- Perform one action. -/
def World.emit (w : World) (e : Event) : World :=
  { w with trace := w.trace ++ [e] }

/-- The timeout goroutine (lines 50-53): sleep, then send. -/
def timeoutTask (w : World) : World :=
  (w.emit (.sleep (10 * Second))).emit (.send "\nTimed out!")

/-- The branch on `lookup[input]` (lines 63-67): the text it prints. -/
def lookupReport (lookup : GoMap) (input : String) : String :=
  match lookup.get input with
  | some e => Println (render e)
  | none => Println "No entry found"

/-- The body of the query loop for counter value `i` (lines 57-67). The
variable `input` is declared in the body, so each iteration starts from "". -/
def queryIteration (i : Nat) (w : World) : World :=
  let w1 := w.emit (.print (queriesLeft (10 - (i : Int))))
  let w2 := w1.emit (.print "Enter: ")
  let r := Scanln "" w2.stdin
  let w3 := { w2 with stdin := r.stdin, trace := w2.trace ++ [Event.scanln r.input r.err] }
  w3.emit (.print (lookupReport w3.lookup r.input))

/-- The loop `for i := 0; i < 10; i++` entered with counter `i`. -/
def queryLoop (i : Nat) (w : World) : World :=
  if i < 10 then queryLoop (i + 1) (queryIteration i w) else w
termination_by 10 - i

/-- The query goroutine (lines 55-70): the loop, then the send. -/
def queryTask (w : World) : World :=
  (queryLoop 0 w).emit (.send "Session ended")

/-- The state after the first `k` runs of the loop body, counters `0` to
`k - 1`: the loop stopped early. It is the whole loop at `k = 10`
(`queryLoop_zero` below). -/
def queryAfter : Nat → World → World
  | 0, w => w
  | k + 1, w => queryIteration k (queryAfter k w)

/-- How many calls of `Scanln` a trace holds. -/
def countScans (tr : List Event) : Nat :=
  (tr.filter (fun e => match e with | .scanln _ _ => true | _ => false)).length

/-- The payloads sent on the channel, oldest first. -/
def sends (tr : List Event) : List String :=
  tr.filterMap (fun e => match e with | .send m => some m | _ => none)

/-! ## The fixed directory (lines 37-40) -/

/-- The value `human{"Alice", 56}`. -/
def alice : human := ⟨"Alice", 56⟩

/-- The value `human{"Bob", 9}`. -/
def bob : human := ⟨"Bob", 9⟩

/-- The value `dog{"Missile", &bob, 56}`; `bobAddr` is where `bob` lives. -/
def missile (bobAddr : Nat) : dog := ⟨"Missile", .addr bobAddr, 56⟩

/-- The slice `[]entry{alice, bob, missile}`: the two humans are copied
into their interface values. -/
def entryList (bobAddr : Nat) : List entry :=
  [.ofHuman alice, .ofHuman bob, .ofDog (missile bobAddr)]

/-- The variables of type `human` that a pointer can reach: only `bob` has
its address taken. -/
def deref (bobAddr : Nat) : Ptr → Option human
  | .null => none
  | .addr a => if a = bobAddr then some bob else none

/-- The world in which the two goroutines start: the map of lines 42-45. -/
def session (bobAddr : Nat) (stdin : List Char) : World :=
  ⟨buildLookup (entryList bobAddr), stdin, []⟩

/-! ## Lemmas on the map -/

theorem GoMap.get_set_same (m : GoMap) (k : String) (v : entry) :
    (m.set k v).get k = some v := by
  induction m with
  | nil => simp [GoMap.set, GoMap.get]
  | cons p t ih =>
    obtain ⟨k', v'⟩ := p
    by_cases h : k' = k
    · simp [GoMap.set, GoMap.get, h]
    · simp [GoMap.set, GoMap.get, h, ih]

theorem GoMap.get_set_other (m : GoMap) (k k' : String) (v : entry) (hne : k ≠ k') :
    (m.set k v).get k' = m.get k' := by
  induction m with
  | nil => simp [GoMap.set, GoMap.get, hne]
  | cons p t ih =>
    obtain ⟨k0, v0⟩ := p
    by_cases h : k0 = k
    · subst h
      simp [GoMap.set, GoMap.get, hne]
    · by_cases h2 : k0 = k'
      · subst h2
        simp [GoMap.set, GoMap.get, h]
      · simp [GoMap.set, GoMap.get, h, h2, ih]

theorem buildFrom_nil (m : GoMap) : buildFrom m [] = m := rfl

theorem buildFrom_cons (m : GoMap) (e : entry) (l : List entry) :
    buildFrom m (e :: l) = buildFrom (m.set e.getKey e) l := rfl

theorem buildFrom_append (m : GoMap) (l₁ l₂ : List entry) :
    buildFrom m (l₁ ++ l₂) = buildFrom (buildFrom m l₁) l₂ := by
  simp [buildFrom, List.foldl_append]

/-- Entries with other keys leave the binding of `k` as it was. -/
theorem buildFrom_get_of_not_key (m : GoMap) (l : List entry) (k : String)
    (h : ∀ x ∈ l, x.getKey ≠ k) : (buildFrom m l).get k = m.get k := by
  induction l generalizing m with
  | nil => rfl
  | cons e t ih =>
    rw [buildFrom_cons, ih]
    · exact GoMap.get_set_other m e.getKey k e (h e (List.mem_cons_self _ _))
    · intro x hx
      exact h x (List.mem_cons_of_mem _ hx)

/-- Every list holding an entry with key `k` splits at the last such entry. -/
theorem exists_last_with_key (l : List entry) (k : String)
    (h : ∃ e ∈ l, e.getKey = k) :
    ∃ pre last post, l = pre ++ last :: post ∧ last.getKey = k ∧
      ∀ x ∈ post, x.getKey ≠ k := by
  induction l with
  | nil => simp at h
  | cons a t ih =>
    by_cases ht : ∃ e ∈ t, e.getKey = k
    · obtain ⟨pre, last, post, hl, hk, hp⟩ := ih ht
      exact ⟨a :: pre, last, post, by simp [hl], hk, hp⟩
    · have ha : a.getKey = k := by
        obtain ⟨e, he, hek⟩ := h
        rcases List.mem_cons.mp he with rfl | he'
        · exact hek
        · exact absurd ⟨e, he', hek⟩ ht
      refine ⟨[], a, t, rfl, ha, ?_⟩
      intro x hx hxk
      exact ht ⟨x, hx, hxk⟩

/-! ## Lemmas on the query loop -/

theorem queryLoop_unfold (i : Nat) (w : World) :
    queryLoop i w = if i < 10 then queryLoop (i + 1) (queryIteration i w) else w := by
  rw [queryLoop]

/-- Entered with counter `10 - n`, the loop runs the body `n` more times. -/
theorem queryLoop_runs_body (n : Nat) (hn : n ≤ 10) (w : World) :
    queryLoop (10 - n) (queryAfter (10 - n) w) = queryAfter 10 w := by
  induction n with
  | zero => rw [queryLoop_unfold]; simp
  | succ m ih =>
    rw [queryLoop_unfold]
    have h1 : 10 - (m + 1) < 10 := by omega
    have h2 : 10 - (m + 1) + 1 = 10 - m := by omega
    rw [if_pos h1, h2]
    have h3 : queryIteration (10 - (m + 1)) (queryAfter (10 - (m + 1)) w)
        = queryAfter (10 - m) w := by
      have h4 : 10 - m = (10 - (m + 1)) + 1 := by omega
      rw [h4]; rfl
    rw [h3]
    exact ih (by omega)

/-- The loop of lines 56-68 is ten runs of its body, counters 0 to 9. -/
theorem queryLoop_zero (w : World) : queryLoop 0 w = queryAfter 10 w :=
  queryLoop_runs_body 10 (le_refl _) w

/-! ## Lemmas on one iteration -/

theorem queryIteration_lookup (i : Nat) (w : World) :
    (queryIteration i w).lookup = w.lookup := rfl

theorem queryIteration_stdin (i : Nat) (w : World) :
    (queryIteration i w).stdin = (Scanln "" w.stdin).stdin := rfl

theorem queryIteration_trace (i : Nat) (w : World) :
    (queryIteration i w).trace = w.trace ++
      [Event.print (queriesLeft (10 - (i : Int))), Event.print "Enter: ",
       Event.scanln (Scanln "" w.stdin).input (Scanln "" w.stdin).err,
       Event.print (lookupReport w.lookup (Scanln "" w.stdin).input)] := by
  simp [queryIteration, World.emit]

theorem queryAfter_lookup (k : Nat) (w : World) :
    (queryAfter k w).lookup = w.lookup := by
  induction k with
  | zero => rfl
  | succ n ih => rw [queryAfter, queryIteration_lookup, ih]

theorem countScans_append (a b : List Event) :
    countScans (a ++ b) = countScans a + countScans b := by
  simp [countScans, List.filter_append]

theorem sends_append (a b : List Event) : sends (a ++ b) = sends a ++ sends b := by
  simp [sends, List.filterMap_append]

theorem queryAfter_countScans (k : Nat) (w : World) :
    countScans (queryAfter k w).trace = countScans w.trace + k := by
  induction k with
  | zero => rfl
  | succ n ih =>
    rw [queryAfter, queryIteration_trace, countScans_append, ih]
    simp [countScans, Nat.add_assoc]

theorem queryAfter_sends (k : Nat) (w : World) :
    sends (queryAfter k w).trace = sends w.trace := by
  induction k with
  | zero => rfl
  | succ n ih =>
    rw [queryAfter, queryIteration_trace, sends_append, ih]
    simp [sends]

theorem queryTask_trace (w : World) :
    (queryTask w).trace = (queryAfter 10 w).trace ++ [Event.send "Session ended"] := by
  simp [queryTask, World.emit, queryLoop_zero]

/-! ## Lemmas on the scanner -/

theorem isSpace_newline : isSpace '\n' = true := by decide

theorem isSpace_return : isSpace '\r' = true := by decide

theorem SkipSpace_cons_space (c : Char) (rest : List Char)
    (hc : isSpace c = true) (hn : c ≠ '\n') :
    SkipSpace (c :: rest) = SkipSpace rest := by
  rw [SkipSpace]
  split_ifs <;> simp_all

theorem SkipSpace_cons_word (c : Char) (rest : List Char) (hc : isSpace c = false) :
    SkipSpace (c :: rest) = Except.ok (c :: rest) := by
  have h1 : c ≠ '\r' := by
    intro h; rw [h, isSpace_return] at hc; exact absurd hc (by decide)
  have h2 : c ≠ '\n' := by
    intro h; rw [h, isSpace_newline] at hc; exact absurd hc (by decide)
  rw [SkipSpace]
  simp [h1, h2, hc]

theorem SkipSpace_newline (rest : List Char) :
    SkipSpace ('\n' :: rest) = Except.error rest := by
  rw [SkipSpace]
  have h : ('\n' : Char) ≠ '\r' := by decide
  simp [h]

theorem SkipSpace_spaces (pre rest : List Char)
    (h : ∀ c ∈ pre, isSpace c = true ∧ c ≠ '\n') :
    SkipSpace (pre ++ rest) = SkipSpace rest := by
  induction pre with
  | nil => rfl
  | cons c t ih =>
    have hc := h c (List.mem_cons_self _ _)
    rw [List.cons_append, SkipSpace_cons_space _ _ hc.1 hc.2]
    exact ih (fun x hx => h x (List.mem_cons_of_mem _ hx))

theorem token_word (t rest : List Char) (ht : ∀ c ∈ t, isSpace c = false)
    (hr : ∀ c, rest.head? = some c → isSpace c = true) :
    token (t ++ rest) = (t, rest) := by
  induction t with
  | nil =>
    cases rest with
    | nil => rfl
    | cons c r =>
      have hc := hr c rfl
      simp [token, hc]
  | cons c t ih =>
    have hc := ht c (List.mem_cons_self _ _)
    have ih2 := ih (fun x hx => ht x (List.mem_cons_of_mem _ hx))
    rw [List.cons_append, token]
    simp [hc, ih2]

theorem expectNewline_spaces (post rest : List Char)
    (h : ∀ c ∈ post, isSpace c = true ∧ c ≠ '\n') :
    expectNewline (post ++ '\n' :: rest) = (false, rest) := by
  induction post with
  | nil => simp [expectNewline]
  | cons c t ih =>
    have hc := h c (List.mem_cons_self _ _)
    rw [List.cons_append, expectNewline]
    simp [hc.1, hc.2]
    exact ih (fun x hx => h x (List.mem_cons_of_mem _ hx))

/-- A line is its trimmed form between two runs of space characters. -/
theorem trimSpace_decompose (line : List Char) :
    ∃ pre post, line = pre ++ trimSpace line ++ post ∧
      (∀ c ∈ pre, isSpace c = true) ∧ (∀ c ∈ post, isSpace c = true) := by
  refine ⟨line.takeWhile isSpace,
    (((line.dropWhile isSpace).reverse).takeWhile isSpace).reverse, ?_, ?_, ?_⟩
  · have h1 : (line.dropWhile isSpace)
        = trimSpace line ++ (((line.dropWhile isSpace).reverse).takeWhile isSpace).reverse := by
      rw [trimSpace, ← List.reverse_append, List.takeWhile_append_dropWhile, List.reverse_reverse]
    rw [List.append_assoc, ← h1, List.takeWhile_append_dropWhile]
  · intro c hc
    exact List.mem_takeWhile_imp hc
  · intro c hc
    exact List.mem_takeWhile_imp (List.mem_reverse.mp hc)

/-- What `Scanln` does with a line whose trimmed form holds no space
character: it consumes the line and its newline; a blank line is the error
"unexpected newline" and leaves `input` alone, any other stores the trimmed
line. -/
theorem Scanln_trimmed_line (input0 : String) (line rest : List Char)
    (hline : '\n' ∉ line) (hword : ∀ c ∈ trimSpace line, isSpace c = false) :
    Scanln input0 (line ++ '\n' :: rest) =
      if trimSpace line = [] then ⟨input0, 0, some .unexpectedNewline, rest⟩
      else ⟨String.mk (trimSpace line), 1, none, rest⟩ := by
  obtain ⟨pre, post, hl, hpre, hpost⟩ := trimSpace_decompose line
  have hmem : ∀ c, c ∈ pre ∨ c ∈ post → c ∈ line := by
    intro c hc
    rw [hl]
    rcases hc with h | h
    · simp [h]
    · simp [h]
  have hpre2 : ∀ c ∈ pre, isSpace c = true ∧ c ≠ '\n' := fun c hc =>
    ⟨hpre c hc, fun h => hline (h ▸ hmem c (Or.inl hc))⟩
  have hpost2 : ∀ c ∈ post, isSpace c = true ∧ c ≠ '\n' := fun c hc =>
    ⟨hpost c hc, fun h => hline (h ▸ hmem c (Or.inr hc))⟩
  have hsplit : line ++ '\n' :: rest = pre ++ (trimSpace line ++ (post ++ '\n' :: rest)) := by
    conv_lhs => rw [hl]
    simp [List.append_assoc]
  rw [hsplit]
  generalize trimSpace line = t at hword
  cases t with
  | nil =>
    have hs : SkipSpace (pre ++ ([] ++ (post ++ '\n' :: rest))) = Except.error rest := by
      rw [List.nil_append, ← List.append_assoc,
        SkipSpace_spaces (pre ++ post) _ (fun c hc => by
          rcases List.mem_append.mp hc with h | h
          · exact hpre2 c h
          · exact hpost2 c h)]
      exact SkipSpace_newline rest
    unfold Scanln
    rw [hs]
    simp
  | cons c t =>
    have hc : isSpace c = false := hword c (List.mem_cons_self _ _)
    have hs : SkipSpace (pre ++ (c :: t ++ (post ++ '\n' :: rest)))
        = Except.ok (c :: (t ++ (post ++ '\n' :: rest))) := by
      rw [SkipSpace_spaces pre _ hpre2, List.cons_append]
      exact SkipSpace_cons_word c _ hc
    have htok : token (c :: (t ++ (post ++ '\n' :: rest))) = (c :: t, post ++ '\n' :: rest) := by
      have := token_word (c :: t) (post ++ '\n' :: rest) hword (by
        intro x hx
        cases post with
        | nil =>
          simp at hx
          rw [← hx]; exact isSpace_newline
        | cons p ps =>
          simp at hx
          rw [← hx]; exact (hpost2 p (List.mem_cons_self _ _)).1)
      simpa using this
    unfold Scanln
    rw [hs]
    simp only [htok, expectNewline_spaces post rest hpost2]
    simp

theorem Scanln_nothing_stored (input0 : String) (stdin : List Char)
    (h : (Scanln input0 stdin).n = 0) :
    (Scanln input0 stdin).input = input0 ∧ (Scanln input0 stdin).err ≠ none := by
  unfold Scanln at h ⊢
  split
  · simp
  · simp
  · rename_i r rest heq
    rw [heq] at h
    simp at h

/-! ## Lemmas on the trace of the loop -/

theorem queryAfter_succ_trace (k : Nat) (w : World) :
    (queryAfter (k + 1) w).trace = (queryAfter k w).trace ++
      [Event.print (queriesLeft (10 - (k : Int))), Event.print "Enter: ",
       Event.scanln (Scanln "" (queryAfter k w).stdin).input
         (Scanln "" (queryAfter k w).stdin).err,
       Event.print (lookupReport w.lookup (Scanln "" (queryAfter k w).stdin).input)] := by
  rw [queryAfter, queryIteration_trace, queryAfter_lookup]

theorem queryAfter_trace_length (k : Nat) (w : World) :
    (queryAfter k w).trace.length = w.trace.length + 4 * k := by
  induction k with
  | zero => rfl
  | succ n ih =>
    rw [queryAfter_succ_trace, List.length_append, ih]
    simp only [List.length_cons, List.length_nil]
    omega

theorem queryAfter_trace_extends (k j : Nat) (w : World) :
    ∃ ext, (queryAfter (k + j) w).trace = (queryAfter k w).trace ++ ext := by
  induction j with
  | zero => exact ⟨[], by simp⟩
  | succ n ih =>
    obtain ⟨ext, hext⟩ := ih
    refine ⟨ext ++ [Event.print (queriesLeft (10 - ((k + n : Nat) : Int))), Event.print "Enter: ",
       Event.scanln (Scanln "" (queryAfter (k + n) w).stdin).input
         (Scanln "" (queryAfter (k + n) w).stdin).err,
       Event.print (lookupReport w.lookup (Scanln "" (queryAfter (k + n) w).stdin).input)], ?_⟩
    rw [← Nat.add_assoc, queryAfter_succ_trace, hext, List.append_assoc]

/-- The first action of iteration `m + 1` is the display of `10 - m`. -/
theorem queryAfter_counter_at (w : World) (m j : Nat) (tail : List Event) :
    ((queryAfter (m + 1 + j) w).trace ++ tail)[w.trace.length + 4 * m]?
      = some (Event.print (queriesLeft (10 - (m : Int)))) := by
  obtain ⟨ext, hext⟩ := queryAfter_trace_extends (m + 1) j w
  rw [hext, queryAfter_succ_trace, ← queryAfter_trace_length m w]
  simp only [List.append_assoc]
  rw [List.getElem?_append_right (le_refl _)]
  simp

theorem queryAfter_mem (w : World) (k : Nat) (e : Event)
    (he : e ∈ (queryAfter k w).trace) :
    e ∈ w.trace ∨ (∃ i, i < k ∧ e = Event.print (queriesLeft (10 - (i : Int)))) ∨
      e = Event.print "Enter: " ∨ (∃ s err, e = Event.scanln s err) ∨
      (∃ s, e = Event.print (lookupReport w.lookup s)) := by
  induction k with
  | zero => exact Or.inl he
  | succ n ih =>
    rw [queryAfter_succ_trace, List.mem_append] at he
    rcases he with h | h
    · rcases ih h with h1 | ⟨i, hi, h2⟩ | h3 | h4 | h5
      · exact Or.inl h1
      · exact Or.inr (Or.inl ⟨i, by omega, h2⟩)
      · exact Or.inr (Or.inr (Or.inl h3))
      · exact Or.inr (Or.inr (Or.inr (Or.inl h4)))
      · exact Or.inr (Or.inr (Or.inr (Or.inr h5)))
    · simp only [List.mem_cons, List.mem_singleton, List.not_mem_nil, or_false] at h
      rcases h with h | h | h | h
      · exact Or.inr (Or.inl ⟨n, by omega, h⟩)
      · exact Or.inr (Or.inr (Or.inl h))
      · exact Or.inr (Or.inr (Or.inr (Or.inl ⟨_, _, h⟩)))
      · exact Or.inr (Or.inr (Or.inr (Or.inr ⟨_, h⟩)))

theorem render_head (e : entry) : (render e).data.head? = some '\x7b' := by
  cases e with
  | ofHuman h => simp [render, String.data_append]
  | ofDog d => simp [render, String.data_append]

theorem lookupReport_ne_queriesLeft (m : GoMap) (s : String) (n : Int) :
    lookupReport m s ≠ queriesLeft n := by
  intro h
  have hq : (queriesLeft n).data.head? = some 'Y' := by
    simp [queriesLeft, String.data_append]
  unfold lookupReport at h
  split at h
  · rename_i e _
    have hr : (Println (render e)).data.head? = some '\x7b' := by
      have := render_head e
      cases hd : (render e).data with
      | nil => rw [hd] at this; simp at this
      | cons c t =>
        rw [hd] at this
        simp [Println, String.data_append, hd]
        simpa using this
    rw [h, hq] at hr
    exact absurd hr (by decide)
  · have hr : (Println "No entry found").data.head? = some 'N' := by decide
    rw [h, hq] at hr
    exact absurd hr (by decide)

/-! ## Claims on the directory -/

/-- C1. Duplicate-key overwrite law of the build loop: for every list of
entries and every entry `e` of it, the list splits at the last entry whose
key is that of `e` (no later entry has this key), and looking that key up in
the map the loop built is a hit returning exactly that last entry. -/
theorem buildLookup_last_wins (l : List entry) (e : entry) (he : e ∈ l) :
    ∃ pre last post, l = pre ++ last :: post ∧ last.getKey = e.getKey ∧
      (∀ x ∈ post, x.getKey ≠ e.getKey) ∧
      (buildLookup l).get e.getKey = some last := by
  obtain ⟨pre, last, post, hl, hk, hp⟩ := exists_last_with_key l e.getKey ⟨e, he, rfl⟩
  refine ⟨pre, last, post, hl, hk, hp, ?_⟩
  rw [buildLookup, hl, buildFrom_append, buildFrom_cons, buildFrom_get_of_not_key _ _ _ hp,
    ← hk]
  exact GoMap.get_set_same _ _ _

/-- Witness of C1 on a list where a dog overwrites a human of the same name. -/
theorem buildLookup_last_wins_witness :
    ∃ pre last post,
      [entry.ofHuman ⟨"Bob", 9⟩, entry.ofDog ⟨"Bob", Ptr.null, 3⟩] = pre ++ last :: post ∧
      last.getKey = (entry.ofHuman ⟨"Bob", 9⟩).getKey ∧
      (∀ x ∈ post, x.getKey ≠ (entry.ofHuman ⟨"Bob", 9⟩).getKey) ∧
      (buildLookup [entry.ofHuman ⟨"Bob", 9⟩, entry.ofDog ⟨"Bob", Ptr.null, 3⟩]).get
        (entry.ofHuman ⟨"Bob", 9⟩).getKey = some last :=
  buildLookup_last_wins [entry.ofHuman ⟨"Bob", 9⟩, entry.ofDog ⟨"Bob", Ptr.null, 3⟩]
    (entry.ofHuman ⟨"Bob", 9⟩) (by decide)

/-- C2. For every list of entries and every string `s` that is the key of no
entry of the list, looking `s` up in the map built from the list is a miss,
and a query iteration on that map whose `Scanln` stores `s` in `input`
prints, after the counter and the prompt, exactly the line "No entry found". -/
theorem lookup_miss_reports_no_entry (l : List entry) (s : String)
    (hs : ∀ e ∈ l, e.getKey ≠ s) (i : Nat) (w : World)
    (hw : w.lookup = buildLookup l) (hread : (Scanln "" w.stdin).input = s) :
    (buildLookup l).get s = none ∧
    (queryIteration i w).trace = w.trace ++
      [Event.print (queriesLeft (10 - (i : Int))), Event.print "Enter: ",
       Event.scanln s (Scanln "" w.stdin).err, Event.print "No entry found\n"] := by
  have hmiss : (buildLookup l).get s = none := by
    rw [buildLookup, buildFrom_get_of_not_key _ _ _ hs]; rfl
  refine ⟨hmiss, ?_⟩
  rw [queryIteration_trace, hread, hw]
  simp [lookupReport, hmiss, Println]

/-- Witness of C2: the fixed directory and the input line "Cat". -/
theorem lookup_miss_reports_no_entry_witness :
    (buildLookup (entryList 4096)).get "Cat" = none ∧
    (queryIteration 0 (session 4096 "Cat\n".toList)).trace =
      (session 4096 "Cat\n".toList).trace ++
      [Event.print (queriesLeft (10 - ((0 : Nat) : Int))), Event.print "Enter: ",
       Event.scanln "Cat" (Scanln "" (session 4096 "Cat\n".toList).stdin).err,
       Event.print "No entry found\n"] :=
  lookup_miss_reports_no_entry (entryList 4096) "Cat" (by decide) 0
    (session 4096 "Cat\n".toList) rfl (by decide)

/-- C4. Scenario on the fixed directory, wherever `bob` is stored: "Alice"
is a hit yielding the human (Alice, 56); "Cat" is a miss and the report is
"No entry found"; "Missile" is a hit yielding the dog named Missile of age
56 whose owner pointer is the address of `bob`, the human (Bob, 9). Run on
the input lines Alice, Cat, Missile, the first three iterations print the
matching reports. -/
theorem fixed_directory_scenario (bobAddr : Nat) :
    (buildLookup (entryList bobAddr)).get "Alice" = some (entry.ofHuman ⟨"Alice", 56⟩) ∧
    (buildLookup (entryList bobAddr)).get "Cat" = none ∧
    lookupReport (buildLookup (entryList bobAddr)) "Cat" = "No entry found\n" ∧
    (buildLookup (entryList bobAddr)).get "Missile"
      = some (entry.ofDog ⟨"Missile", Ptr.addr bobAddr, 56⟩) ∧
    deref bobAddr (Ptr.addr bobAddr) = some ⟨"Bob", 9⟩ ∧
    (queryAfter 3 (session bobAddr "Alice\nCat\nMissile\n".toList)).trace =
      [Event.print "You have 10 queries left...\n", Event.print "Enter: ",
       Event.scanln "Alice" none, Event.print "\x7bAlice 56\x7d\n",
       Event.print "You have 9 queries left...\n", Event.print "Enter: ",
       Event.scanln "Cat" none, Event.print "No entry found\n",
       Event.print "You have 8 queries left...\n", Event.print "Enter: ",
       Event.scanln "Missile" none,
       Event.print (Println (render (entry.ofDog ⟨"Missile", Ptr.addr bobAddr, 56⟩)))] := by
  refine ⟨rfl, rfl, rfl, rfl, ?_, rfl⟩
  simp [deref, bob]

/-! ## Claims on the two goroutines -/

/-- C6. The timeout goroutine, run on its own, performs two actions and no
more: first the sleep of 10 seconds (10 * 10^9 nanoseconds), then one send
whose payload is a newline followed by "Timed out!". Nothing is sent before
the sleep and nothing after the send. -/
theorem timeoutTask_sleeps_then_sends_once (w : World) :
    (timeoutTask w).trace = w.trace ++ [Event.sleep (10 * 10 ^ 9), Event.send "\nTimed out!"] ∧
    sends (timeoutTask w).trace = sends w.trace ++ ["\nTimed out!"] ∧
    sends ((timeoutTask w).trace.take (w.trace.length + 1)) = sends w.trace ∧
    "\nTimed out!".toList = '\n' :: "Timed out!".toList := by
  have h : (timeoutTask w).trace
      = w.trace ++ [Event.sleep (10 * 10 ^ 9), Event.send "\nTimed out!"] := by
    simp [timeoutTask, World.emit, Second]
  refine ⟨h, ?_, ?_, by decide⟩
  · rw [h, sends_append]; simp [sends]
  · rw [h, List.take_append]; simp [sends, List.filterMap_append]

/-- C10. The map is read-only once built: after any number `k` of query
iterations, after the whole query loop, after the whole query goroutine and
after the timeout goroutine, on every input, the map is the map the
goroutine started with (the one the build loop produced). -/
theorem lookup_is_read_only (l : List entry) (stdin : List Char) (tr : List Event) (k : Nat) :
    (queryAfter k ⟨buildLookup l, stdin, tr⟩).lookup = buildLookup l ∧
    (queryLoop 0 ⟨buildLookup l, stdin, tr⟩).lookup = buildLookup l ∧
    (queryTask ⟨buildLookup l, stdin, tr⟩).lookup = buildLookup l ∧
    (timeoutTask ⟨buildLookup l, stdin, tr⟩).lookup = buildLookup l := by
  refine ⟨queryAfter_lookup _ _, ?_, ?_, rfl⟩
  · rw [queryLoop_zero, queryAfter_lookup]
  · simp only [queryTask, World.emit, queryLoop_zero, queryAfter_lookup]

/-- C3. The query goroutine is total: on every input and every map, the
loop is exactly ten runs of its body, each run calls `Scanln` once (so ten
reads), no run sends on the channel, and after the tenth run the goroutine
sends "Session ended" once, as its last action. -/
theorem queryTask_ten_iterations_then_one_send (w : World) :
    queryLoop 0 w = queryAfter 10 w ∧
    (queryTask w).trace = (queryAfter 10 w).trace ++ [Event.send "Session ended"] ∧
    (∀ k, countScans (queryAfter k w).trace = countScans w.trace + k) ∧
    (∀ k, sends (queryAfter k w).trace = sends w.trace) ∧
    countScans (queryTask w).trace = countScans w.trace + 10 ∧
    sends (queryTask w).trace = sends w.trace ++ ["Session ended"] := by
  refine ⟨queryLoop_zero w, queryTask_trace w, fun k => queryAfter_countScans k w,
    fun k => queryAfter_sends k w, ?_, ?_⟩
  · rw [queryTask_trace, countScans_append, queryAfter_countScans]
    simp [countScans]
  · rw [queryTask_trace, sends_append, queryAfter_sends]
    simp [sends]

/-! ## Claims on reading the query -/

/-- C7 as stated fails. On the line "Alice Bob" the read stores the first
word "Alice", not the trimmed line "Alice Bob"; the trimmed line is the key
of no entry of the fixed directory, yet the iteration is a hit and prints
the record of Alice. The read also stops one character into the second
word: "ob" and the newline stay unread. -/
theorem first_word_looked_up_not_trimmed_line :
    (Scanln "" "Alice Bob\n".toList).input = "Alice" ∧
    String.mk (trimSpace "Alice Bob".toList) = "Alice Bob" ∧
    (Scanln "" "Alice Bob\n".toList).input ≠ String.mk (trimSpace "Alice Bob".toList) ∧
    (buildLookup (entryList 4096)).get (String.mk (trimSpace "Alice Bob".toList)) = none ∧
    (queryIteration 0 (session 4096 "Alice Bob\n".toList)).trace =
      [Event.print "You have 10 queries left...\n", Event.print "Enter: ",
       Event.scanln "Alice" (some ScanError.expectedNewline), Event.print "\x7bAlice 56\x7d\n"] ∧
    (queryIteration 0 (session 4096 "Alice Bob\n".toList)).stdin = "ob\n".toList := by
  decide

/-- C7, amended. For every line read in a query iteration whose trimmed form
holds no space character (one word, or nothing), the key looked up is the
trimmed line: the read stores it in `input` (a blank line leaves `input`
empty, which is its trimmed form), consumes the line with its newline, and
the iteration prints the report of looking the trimmed line up: the entry
when it is a key (hit), "No entry found" when it is not (miss). -/
theorem single_word_line_looked_up_trimmed (i : Nat) (w : World) (line rest : List Char)
    (hin : w.stdin = line ++ '\n' :: rest) (hline : '\n' ∉ line)
    (hword : ∀ c ∈ trimSpace line, isSpace c = false) :
    (Scanln "" w.stdin).input = String.mk (trimSpace line) ∧
    (queryIteration i w).stdin = rest ∧
    (queryIteration i w).trace = w.trace ++
      [Event.print (queriesLeft (10 - (i : Int))), Event.print "Enter: ",
       Event.scanln (String.mk (trimSpace line))
         (if trimSpace line = [] then some ScanError.unexpectedNewline else none),
       Event.print (lookupReport w.lookup (String.mk (trimSpace line)))] ∧
    (∀ e, w.lookup.get (String.mk (trimSpace line)) = some e →
      lookupReport w.lookup (String.mk (trimSpace line)) = Println (render e)) ∧
    (w.lookup.get (String.mk (trimSpace line)) = none →
      lookupReport w.lookup (String.mk (trimSpace line)) = "No entry found\n") := by
  have hscan := Scanln_trimmed_line "" line rest hline hword
  rw [← hin] at hscan
  have hinput : (Scanln "" w.stdin).input = String.mk (trimSpace line) := by
    rw [hscan]
    by_cases h : trimSpace line = []
    · simp [h]
    · simp [h]
  have herr : (Scanln "" w.stdin).err
      = if trimSpace line = [] then some ScanError.unexpectedNewline else none := by
    rw [hscan]
    by_cases h : trimSpace line = []
    · simp [h]
    · simp [h]
  have hrest : (Scanln "" w.stdin).stdin = rest := by
    rw [hscan]
    by_cases h : trimSpace line = []
    · simp [h]
    · simp [h]
  refine ⟨hinput, ?_, ?_, ?_, ?_⟩
  · rw [queryIteration_stdin, hrest]
  · rw [queryIteration_trace, hinput, herr]
  · intro e he
    simp [lookupReport, he]
  · intro he
    simp [lookupReport, he, Println]

/-- Witness of the amended C7: the line "  Missile" followed by a tab. -/
theorem single_word_line_looked_up_trimmed_witness :
    String.mk (trimSpace "  Missile\t".toList) = "Missile" ∧
    (Scanln "" (session 4096 "  Missile\t\nBob\n".toList).stdin).input
      = String.mk (trimSpace "  Missile\t".toList) ∧
    (queryIteration 0 (session 4096 "  Missile\t\nBob\n".toList)).stdin = "Bob\n".toList :=
  ⟨by decide,
   (single_word_line_looked_up_trimmed 0 (session 4096 "  Missile\t\nBob\n".toList)
      "  Missile\t".toList "Bob\n".toList rfl (by decide) (by decide)).1,
   (single_word_line_looked_up_trimmed 0 (session 4096 "  Missile\t\nBob\n".toList)
      "  Missile\t".toList "Bob\n".toList rfl (by decide) (by decide)).2.1⟩

/-- C8 as stated fails. On the line "Bob x" the read fails (the error is
"expected newline") after it has stored the word "Bob": on the fixed
directory the iteration is a hit and prints the record of Bob, not
"No entry found". -/
theorem failed_read_after_word_is_hit :
    (Scanln "" "Bob x\n".toList).err = some ScanError.expectedNewline ∧
    (Scanln "" "Bob x\n".toList).input = "Bob" ∧
    (queryIteration 0 (session 4096 "Bob x\n".toList)).trace =
      [Event.print "You have 10 queries left...\n", Event.print "Enter: ",
       Event.scanln "Bob" (some ScanError.expectedNewline), Event.print "\x7bBob 9\x7d\n"] ∧
    Event.print "No entry found\n" ∉ (queryIteration 0 (session 4096 "Bob x\n".toList)).trace := by
  decide

/-- C8, amended. On the fixed directory, every iteration whose read fails
before a word is stored (`Scanln` reports 0 items: an empty or blank line,
or the end of input) degenerates to a miss, whatever the iterations before
it read: the read reports an error that the program drops, `input` is the
empty string, the iteration is the usual four actions with one single read
and the report "No entry found", it is counted like any other (the task
still performs ten reads), and the empty string is no key of the fixed
directory. -/
theorem failed_read_without_word_is_miss (bobAddr : Nat) (stdin : List Char) (k : Nat)
    (hfail : (Scanln "" (queryAfter k (session bobAddr stdin)).stdin).n = 0) :
    (Scanln "" (queryAfter k (session bobAddr stdin)).stdin).err ≠ none ∧
    (Scanln "" (queryAfter k (session bobAddr stdin)).stdin).input = "" ∧
    (queryAfter (k + 1) (session bobAddr stdin)).trace =
      (queryAfter k (session bobAddr stdin)).trace ++
      [Event.print (queriesLeft (10 - (k : Int))), Event.print "Enter: ",
       Event.scanln "" (Scanln "" (queryAfter k (session bobAddr stdin)).stdin).err,
       Event.print "No entry found\n"] ∧
    countScans (queryAfter (k + 1) (session bobAddr stdin)).trace = k + 1 ∧
    countScans (queryTask (session bobAddr stdin)).trace = 10 ∧
    (buildLookup (entryList bobAddr)).get "" = none := by
  obtain ⟨hinput, herr⟩ := Scanln_nothing_stored "" _ hfail
  have hmiss : (buildLookup (entryList bobAddr)).get "" = none := rfl
  refine ⟨herr, hinput, ?_, ?_, ?_, hmiss⟩
  · rw [queryAfter_succ_trace, hinput]
    have : lookupReport (session bobAddr stdin).lookup "" = "No entry found\n" := rfl
    rw [this]
  · rw [queryAfter_countScans]
    simp [session, countScans]
  · rw [queryTask_trace, countScans_append, queryAfter_countScans]
    simp [session, countScans]

/-- Witness of the amended C8: a hit on "Alice", then an empty line. -/
theorem failed_read_without_word_is_miss_witness :
    (Scanln "" (queryAfter 1 (session 4096 "Alice\n\nBob\n".toList)).stdin).n = 0 ∧
    (queryAfter 2 (session 4096 "Alice\n\nBob\n".toList)).trace =
      (queryAfter 1 (session 4096 "Alice\n\nBob\n".toList)).trace ++
      [Event.print (queriesLeft (10 - ((1 : Nat) : Int))), Event.print "Enter: ",
       Event.scanln "" (Scanln "" (queryAfter 1 (session 4096 "Alice\n\nBob\n".toList)).stdin).err,
       Event.print "No entry found\n"] :=
  ⟨by decide,
   (failed_read_without_word_is_miss 4096 "Alice\n\nBob\n".toList 1 (by decide)).2.2.1⟩

/-! ## Claims on the counter -/

/-- C9. On every map and every input, for every `k` from 1 to 10 the first
action of the `k`-th iteration (action number `4 * (k - 1)` of the query
goroutine) prints "You have N queries left..." with `N = 11 - k`, and `N` is
at least 1; read in order these ten displays are 10, 9, ..., 1; and the
goroutine never prints the display of 0. -/
theorem counter_descends_from_ten_to_one (lookup : GoMap) (stdin : List Char) (k : Nat)
    (h1 : 1 ≤ k) (h10 : k ≤ 10) :
    (queryTask ⟨lookup, stdin, []⟩).trace[4 * (k - 1)]?
      = some (Event.print ("You have " ++ fmtInt (11 - (k : Int)) ++ " queries left...\n")) ∧
    (1 : Int) ≤ 11 - (k : Int) ∧
    (List.range 10).map (fun j => (queryTask ⟨lookup, stdin, []⟩).trace[4 * j]?) =
      [some (Event.print "You have 10 queries left...\n"),
       some (Event.print "You have 9 queries left...\n"),
       some (Event.print "You have 8 queries left...\n"),
       some (Event.print "You have 7 queries left...\n"),
       some (Event.print "You have 6 queries left...\n"),
       some (Event.print "You have 5 queries left...\n"),
       some (Event.print "You have 4 queries left...\n"),
       some (Event.print "You have 3 queries left...\n"),
       some (Event.print "You have 2 queries left...\n"),
       some (Event.print "You have 1 queries left...\n")] ∧
    Event.print "You have 0 queries left...\n" ∉ (queryTask ⟨lookup, stdin, []⟩).trace := by
  have hat : ∀ m : Nat, m < 10 → (queryTask ⟨lookup, stdin, []⟩).trace[4 * m]?
      = some (Event.print (queriesLeft (10 - (m : Int)))) := by
    intro m hm
    have h := queryAfter_counter_at ⟨lookup, stdin, []⟩ m (9 - m) [Event.send "Session ended"]
    have e1 : m + 1 + (9 - m) = 10 := by omega
    rw [e1] at h
    rw [queryTask_trace]
    simpa using h
  refine ⟨?_, by omega, ?_, ?_⟩
  · have h := hat (k - 1) (by omega)
    have e2 : (10 : Int) - ((k - 1 : Nat) : Int) = 11 - (k : Int) := by omega
    rw [e2] at h
    exact h
  · have hr : List.range 10 = [0, 1, 2, 3, 4, 5, 6, 7, 8, 9] := by decide
    rw [hr]
    simp only [List.map_cons, List.map_nil]
    rw [hat 0 (by omega), hat 1 (by omega), hat 2 (by omega), hat 3 (by omega),
      hat 4 (by omega), hat 5 (by omega), hat 6 (by omega), hat 7 (by omega),
      hat 8 (by omega), hat 9 (by omega)]
    rfl
  · intro hmem
    rw [queryTask_trace, List.mem_append] at hmem
    rcases hmem with h | h
    · rcases queryAfter_mem _ _ _ h with h0 | ⟨i, hi, h2⟩ | h3 | ⟨s, err, h4⟩ | ⟨s, h5⟩
      · simp at h0
      · have h6 : queriesLeft 0 = queriesLeft (10 - (i : Int)) := by
          injection h2
        interval_cases i <;> exact absurd h6 (by decide)
      · exact absurd h3 (by decide)
      · exact absurd h4 (by simp)
      · have h6 : lookupReport lookup s = queriesLeft 0 := by
          injection h5 with h7
          exact h7.symm
        exact lookupReport_ne_queriesLeft _ _ _ h6
    · simp at h

/-- Witness of C9 at the fifth iteration of a run on the fixed directory. -/
theorem counter_descends_from_ten_to_one_witness :
    (queryTask ⟨buildLookup (entryList 4096), "Alice\nCat\n".toList, []⟩).trace[4 * (5 - 1)]?
      = some (Event.print ("You have " ++ fmtInt (11 - ((5 : Nat) : Int)) ++ " queries left...\n")) :=
  (counter_descends_from_ten_to_one (buildLookup (entryList 4096)) "Alice\nCat\n".toList 5
    (by decide) (by decide)).1

end GoWorkshop
